import Mathlib

/-!
Verification development for the `dataflow-diagram` utility.

The program normalizes display names into identifiers (`to_code`), groups
software systems under hosting environments (`Network`), and renders the
resulting network in the DOT graph language, either by direct string
emission (`to_dot` / `write_dot`) or by building a graph object that a
graph library serializes (`add_to_graph` / `digraph2`).

Python strings are modelled as Lean `String`s; single-character
`str.replace` calls become per-character maps over the underlying
character list; Python `dict`s (which preserve insertion order) become
association lists with insert-or-overwrite semantics; `csv.DictReader`
rows become records carrying the columns the readers consult.
-/

namespace DataflowDiagram

/-- Per-character map over a Python string (models `str.lower`
and single-character-to-single-character `str.replace`). -/
def strMap (f : Char → Char) (s : String) : String :=
  ⟨s.data.map f⟩

/-- Models `str.replace(old, new)` where `old` is one character and `new` is an
arbitrary string: each occurrence of `old` is expanded to `new`. -/
def strReplaceChar (old : Char) (new : String) (s : String) : String :=
  ⟨(s.data.map (fun c => if c = old then new.data else [c])).flatten⟩

/-- Python `token.lower()`, character by character. -/
def pyLower (s : String) : String :=
  strMap Char.toLower s

/-- Models `to_code` from `netdiag.py`:
`token.lower().replace(' ','_').replace('.','_')`. -/
def to_code (token : String) : String :=
  strMap (fun c => if c = '.' then '_' else c)
    (strMap (fun c => if c = ' ' then '_' else c) (pyLower token))

/-- The single character-level transformation that `to_code` applies to
every character, stated the way the spec describes it: lower-case the
character, then turn a (lowered) space or period into an underscore. -/
def specCodeChar (c : Char) : Char :=
  if c.toLower = ' ' ∨ c.toLower = '.' then '_' else c.toLower

/-- The spec's description of normalization, as a whole-string function:
lower-case the string and replace every space and period by `_`. -/
def specNormalize (s : String) : String :=
  ⟨s.data.map specCodeChar⟩

/-! ### Python dicts as insertion-ordered association lists -/

/-- A Python `dict` keyed by strings: an insertion-ordered association
list.  Python 3.7+ dicts preserve insertion order, which the renderer
relies on. -/
abbrev Dict (α : Type) : Type := List (String × α)

/-- Models `k in d` for a Python dict. -/
def dictMem {α : Type} (k : String) : Dict α → Bool
  | [] => false
  | p :: d => decide (p.1 = k) || dictMem k d

/-- Models `d[k] = v` for a Python dict: overwrite in place when the key is
present (keeping its position), append otherwise. -/
def dictInsert {α : Type} (k : String) (v : α) (d : Dict α) : Dict α :=
  if dictMem k d then d.map (fun p => if p.1 = k then (p.1, v) else p)
  else d ++ [(k, v)]

/-- Models `d[k]` lookup (as an option): value of the entry holding key `k`. -/
def dictGet? {α : Type} (k : String) : Dict α → Option α
  | [] => none
  | p :: d => if p.1 = k then some p.2 else dictGet? k d

/-- Models `d.values()` for a Python dict, in insertion order. -/
def dictValues {α : Type} (d : Dict α) : List α :=
  d.map Prod.snd

/-! ### Entities of `netdiag.py` -/

/-- Models `System` from `netdiag.py`: a software system in the network.
`environment` is the display name of the hosting environment; a system
"not in an environment" carries the empty string there (which is what
`read_systems` stores for a blank `Environment` cell). -/
structure System where
  code : String
  name : String
  environment : String
deriving DecidableEq

/-- Models `DataFlow` from `netdiag.py`: a flow of data between two systems,
referenced by name; `mode` is `"r"` for read, anything else is treated
as write. -/
structure DataFlow where
  source : String
  target : String
  mode : String
deriving DecidableEq

/-- Models `Environment` from `netdiag.py`: a hosting environment owning an
ordered list of its systems (`self.systems`, initially empty). -/
structure Environment where
  code : String
  name : String
  host : String
  oncampus : Bool
  systems : List System
deriving DecidableEq

/-- Models `Environment.add_system`: appends a system to this environment. -/
def Environment.add_system (e : Environment) (s : System) : Environment :=
  { e with systems := e.systems ++ [s] }

/-- Models `' ' * indent`, the indentation padding used by the `to_dot` methods. -/
def padStr (indent : Nat) : String :=
  ⟨List.replicate indent ' '⟩

/-- Models `System.to_dot`: one DOT node line; label is the display name with
spaces turned into literal `\n` sequences, shape is `box`. -/
def System.to_dot (s : System) (indent : Nat := 2) : String :=
  let pad := padStr indent
  let label := strReplaceChar ' ' "\\n" s.name
  let shape := "box"
  pad ++ s.code ++ " [label=\"" ++ label ++ "\", shape=" ++ shape ++ "];"

/-- Models `DataFlow.to_dot`: one DOT edge line from the normalized source code
to the normalized target code; dashed when `mode == 'r'`, else solid. -/
def DataFlow.to_dot (df : DataFlow) (indent : Nat := 2) : String :=
  let pad := padStr indent
  let s := to_code df.source
  let t := to_code df.target
  let style := if df.mode = "r" then "dashed" else "solid"
  pad ++ s ++ " -> " ++ t ++ " [style=\"" ++ style ++ "\"]"

/-- Models `Environment.to_dot`: a DOT `subgraph cluster_<code>` block with
label, bottom label position, dashed border, the maroon color pair when
on campus, and the member system nodes, joined by newlines. -/
def Environment.to_dot (e : Environment) (indent : Nat := 2) : String :=
  let pad := padStr indent
  let pad2 := pad ++ pad
  String.intercalate "\n"
    ([pad ++ "subgraph cluster_" ++ e.code ++ " \x7b",
      pad2 ++ "label=\"" ++ e.name ++ "\";",
      pad2 ++ "labelloc=\"b\";",
      pad2 ++ "style=dashed;"]
     ++ (if e.oncampus then
          [pad2 ++ "color=\"maroon\";", pad2 ++ "fontcolor=\"maroon\";"]
        else [])
     ++ [""]
     ++ e.systems.map (fun s => s.to_dot (indent + 2))
     ++ [pad ++ "\x7d"])

/-! ### The graph object built through the graphviz library

`add_to_graph` methods hand nodes, edges and clusters to the graphviz
`Digraph` object; the library itself (statement bookkeeping and final
serialization) is an external collaborator, so the object is modelled by
the statements the program feeds it. -/

/-- A `dot.node(code, label, shape=shape)` statement. -/
structure NodeStmt where
  id : String
  label : String
  shape : String
deriving DecidableEq

/-- A `dot.edge(s, t, style=style)` statement. -/
structure EdgeStmt where
  source : String
  target : String
  style : String
deriving DecidableEq

/-- A `dot.subgraph(name=..., graph_attr=...)` cluster and the node
statements added inside it.  `color`/`fontcolor` are `none` when the
attribute dict carries no such key. -/
structure ClusterStmt where
  name : String
  label : String
  labelloc : String
  style : String
  color : Option String
  fontcolor : Option String
  nodes : List NodeStmt
deriving DecidableEq

/-- The digraph assembled by `Network.digraph2`: clusters, then
top-level nodes, then edges. -/
structure DotGraph where
  name : String
  clusters : List ClusterStmt
  nodes : List NodeStmt
  edges : List EdgeStmt
deriving DecidableEq

/-- Models `System.add_to_graph`: adds this system as a node statement. -/
def System.add_to_graph (s : System) : NodeStmt :=
  { id := s.code
    label := strReplaceChar ' ' "\\n" s.name
    shape := "box" }

/-- Models `Environment.add_to_graph`: adds this environment as a cluster with
the same attribute dict `to_dot` renders, containing its system nodes. -/
def Environment.add_to_graph (e : Environment) : ClusterStmt :=
  { name := "cluster_" ++ e.code
    label := e.name
    labelloc := "b"
    style := "dashed"
    color := if e.oncampus then some "maroon" else none
    fontcolor := if e.oncampus then some "maroon" else none
    nodes := e.systems.map System.add_to_graph }

/-- Models `DataFlow.add_to_graph`: adds this flow as an edge statement. -/
def DataFlow.add_to_graph (df : DataFlow) : EdgeStmt :=
  { source := to_code df.source
    target := to_code df.target
    style := if df.mode = "r" then "dashed" else "solid" }

/-! ### The `Network` aggregate -/

/-- Models `Network` from `netdiag.py`: environments and top-level systems
keyed by normalized code, plus the flat flow list. -/
structure Network where
  name : String
  environments : Dict Environment
  systems : Dict System
  dataflows : List DataFlow

/-- Models `Network(name)`: the freshly initialized network. -/
def Network.init (name : String) : Network :=
  ⟨name, [], [], []⟩

/-- Models `Network.add_dataflow`: appends unconditionally. -/
def Network.add_dataflow (n : Network) (df : DataFlow) : Network :=
  { n with dataflows := n.dataflows ++ [df] }

/-- Models `Network.add_environment`: `self.environments[environment.code] = environment`. -/
def Network.add_environment (n : Network) (e : Environment) : Network :=
  { n with environments := dictInsert e.code e n.environments }

/-- Models `Network.add_system`: normalize the system's declared environment
name; if it is a known environment key, append the system to that
environment, else file the system top-level under its own code. -/
def Network.add_system (n : Network) (s : System) : Network :=
  let env_code := to_code s.environment
  if dictMem env_code n.environments then
    { n with environments :=
        n.environments.map (fun p =>
          if p.1 = env_code then (p.1, p.2.add_system s) else p) }
  else
    { n with systems := dictInsert s.code s n.systems }

/-- Models `Network.write_dot`: the full text written to `out` — header, each
environment's block followed by a blank line, each top-level system
line, a blank line, each dataflow line, and the closing brace. -/
def Network.write_dot (n : Network) : String :=
  "digraph " ++ n.name ++ " \x7b\n"
  ++ String.join ((dictValues n.environments).map (fun e => e.to_dot ++ "\n\n"))
  ++ String.join ((dictValues n.systems).map (fun s => s.to_dot ++ "\n"))
  ++ "\n\n"
  ++ String.join (n.dataflows.map (fun df => df.to_dot ++ "\n"))
  ++ "\x7d\n"

/-- Models `Network.digraph2`: walk the network and build up the graph object
through the `add_to_graph` methods. -/
def Network.digraph2 (n : Network) : DotGraph :=
  { name := n.name
    clusters := (dictValues n.environments).map Environment.add_to_graph
    nodes := (dictValues n.systems).map System.add_to_graph
    edges := n.dataflows.map DataFlow.add_to_graph }

/-! ### The record readers of `ils_dataflow.py`

A `csv.DictReader` row is modelled as a record of the columns the
reader consults; Python truthiness of a cell is `≠ ""`. -/

/-- One row of the environments CSV (columns the reader consults).
`On_Campus` models the `On Campus` column. -/
structure EnvRow where
  Environment : String
  Host : String
  On_Campus : String
deriving DecidableEq

/-- One row of the systems CSV (columns the reader consults). -/
structure SysRow where
  System : String
  Environment : String
deriving DecidableEq

/-- One row of the data-flow CSV. -/
structure DfRow where
  source : String
  target : String
  mode : String
deriving DecidableEq

/-- Models `read_environments`: one `Environment` per row with a non-blank
`Environment` cell; `bool(row['On Campus'])` is non-blankness. -/
def read_environments (rows : List EnvRow) : List Environment :=
  rows.filterMap (fun row =>
    if row.Environment ≠ "" then
      some ⟨to_code row.Environment, row.Environment, row.Host,
            decide (row.On_Campus ≠ ""), []⟩
    else none)

/-- Models `read_systems`: one `System` per row with a non-blank `System` cell. -/
def read_systems (rows : List SysRow) : List System :=
  rows.filterMap (fun row =>
    if row.System ≠ "" then
      some ⟨to_code row.System, row.System, row.Environment⟩
    else none)

/-- Models `read_dataflows`: one `DataFlow` per row where both `source` and
`target` are non-blank; endpoints are normalized already here. -/
def read_dataflows (rows : List DfRow) : List DataFlow :=
  rows.filterMap (fun row =>
    if row.source ≠ "" ∧ row.target ≠ "" then
      some ⟨to_code row.source, to_code row.target, row.mode⟩
    else none)

/-! ### Serializing the graph object

`dotGraphText` spells out, statement by statement, the DOT text that the
graph object assembled by `digraph2` denotes, using `write_dot`'s
formatting conventions.  `write_dot` factoring through it shows the two
emission strategies agree on clusters, nodes, edges and attributes. -/

/-- DOT text of one node statement. -/
def nodeText (indent : Nat) (nd : NodeStmt) : String :=
  padStr indent ++ nd.id ++ " [label=\"" ++ nd.label ++ "\", shape=" ++ nd.shape ++ "];"

/-- DOT text of one edge statement. -/
def edgeText (indent : Nat) (ed : EdgeStmt) : String :=
  padStr indent ++ ed.source ++ " -> " ++ ed.target ++ " [style=\"" ++ ed.style ++ "\"]"

/-- DOT text of one cluster statement: attribute lines (color lines only
when the attributes are present), a blank line, member nodes, brace. -/
def clusterText (indent : Nat) (c : ClusterStmt) : String :=
  let pad := padStr indent
  let pad2 := pad ++ pad
  String.intercalate "\n"
    ([pad ++ "subgraph " ++ c.name ++ " \x7b",
      pad2 ++ "label=\"" ++ c.label ++ "\";",
      pad2 ++ "labelloc=\"" ++ c.labelloc ++ "\";",
      pad2 ++ "style=" ++ c.style ++ ";"]
     ++ (match c.color with
         | some col => [pad2 ++ "color=\"" ++ col ++ "\";"]
         | none => [])
     ++ (match c.fontcolor with
         | some col => [pad2 ++ "fontcolor=\"" ++ col ++ "\";"]
         | none => [])
     ++ [""]
     ++ c.nodes.map (nodeText (indent + 2))
     ++ [pad ++ "\x7d"])

/-- DOT text of the whole graph object, in `write_dot`'s layout. -/
def dotGraphText (g : DotGraph) : String :=
  "digraph " ++ g.name ++ " \x7b\n"
  ++ String.join (g.clusters.map (fun c => clusterText 2 c ++ "\n\n"))
  ++ String.join (g.nodes.map (fun nd => nodeText 2 nd ++ "\n"))
  ++ "\n\n"
  ++ String.join (g.edges.map (fun ed => edgeText 2 ed ++ "\n"))
  ++ "\x7d\n"

/-! ### Concrete data for the end-to-end example -/

/-- The environments table of the end-to-end example: one row,
`Library Cloud` hosted on AWS, with a truthy `On Campus` marker. -/
def exampleEnvRows : List EnvRow :=
  [⟨"Library Cloud", "AWS", "x"⟩]

/-- The systems table of the end-to-end example. -/
def exampleSysRows : List SysRow :=
  [⟨"Catalog", "Library Cloud"⟩, ⟨"Reporting", ""⟩]

/-- The data-flow table of the end-to-end example. -/
def exampleDfRows : List DfRow :=
  [⟨"Catalog", "Reporting", "r"⟩]

/-- The network `main` assembles from the example tables: read
environments, then systems, then dataflows, feeding each record to the
corresponding `add_*` method in order. -/
def exampleNetwork : Network :=
  (read_dataflows exampleDfRows).foldl Network.add_dataflow
    ((read_systems exampleSysRows).foldl Network.add_system
      ((read_environments exampleEnvRows).foldl Network.add_environment
        (Network.init "ILS")))

/-- Concrete inputs used to witness theorems with hypotheses: a network
holding one registered environment and nothing else. -/
def witnessEnv : Environment :=
  ⟨"library_cloud", "Library Cloud", "AWS", true, []⟩

/-- A network with `witnessEnv` registered and no systems or flows. -/
def witnessNet : Network :=
  ⟨"ILS", [("library_cloud", witnessEnv)], [], []⟩

/-- A system declaring the environment `Library Cloud` (known in
`witnessNet`). -/
def witnessSysKnown : System :=
  ⟨"catalog", "Catalog", "Library Cloud"⟩

/-- A system declaring no environment. -/
def witnessSysBlank : System :=
  ⟨"reporting", "Reporting", ""⟩

/-! ### Helper lemmas tying the two rendering strategies together -/

theorem to_code_data (s : String) :
    (to_code s).data = s.data.map (fun c =>
      if (if Char.toLower c = ' ' then '_' else Char.toLower c) = '.' then '_'
      else (if Char.toLower c = ' ' then '_' else Char.toLower c)) := by
  simp [to_code, strMap, pyLower, List.map_map, Function.comp]

theorem to_code_eq_specNormalize (s : String) : to_code s = specNormalize s := by
  apply String.ext
  rw [to_code_data]
  simp only [specNormalize]
  apply List.map_congr_left
  intro c _
  by_cases hsp : Char.toLower c = ' '
  · simp [specCodeChar, hsp]
  · by_cases hdot : Char.toLower c = '.'
    · simp [specCodeChar, hsp, hdot]
    · simp [specCodeChar, hsp, hdot]

theorem nodeText_add_to_graph (i : Nat) (s : System) :
    nodeText i (System.add_to_graph s) = System.to_dot s i := rfl

theorem edgeText_add_to_graph (i : Nat) (df : DataFlow) :
    edgeText i (DataFlow.add_to_graph df) = DataFlow.to_dot df i := rfl

theorem clusterText_add_to_graph (i : Nat) (e : Environment) :
    clusterText i (Environment.add_to_graph e) = Environment.to_dot e i := by
  have hnodes : (e.systems.map System.add_to_graph).map (nodeText (i + 2))
      = e.systems.map (fun s => System.to_dot s (i + 2)) := by
    rw [List.map_map]
    rfl
  cases honc : e.oncampus <;>
    simp only [clusterText, Environment.add_to_graph, Environment.to_dot, honc,
      hnodes, Bool.false_eq_true, if_false, if_true, String.append_assoc] <;>
    rfl

theorem write_dot_factors (n : Network) :
    Network.write_dot n = dotGraphText (Network.digraph2 n) := by
  have h1 : ((dictValues n.environments).map Environment.add_to_graph).map
        (fun c => clusterText 2 c ++ "\n\n")
      = (dictValues n.environments).map (fun e => Environment.to_dot e 2 ++ "\n\n") := by
    rw [List.map_map]
    apply List.map_congr_left
    intro e _
    show clusterText 2 (Environment.add_to_graph e) ++ "\n\n" = _
    rw [clusterText_add_to_graph]
  have h2 : ((dictValues n.systems).map System.add_to_graph).map
        (fun nd => nodeText 2 nd ++ "\n")
      = (dictValues n.systems).map (fun s => System.to_dot s 2 ++ "\n") := by
    rw [List.map_map]
    rfl
  have h3 : (n.dataflows.map DataFlow.add_to_graph).map (fun ed => edgeText 2 ed ++ "\n")
      = n.dataflows.map (fun df => DataFlow.to_dot df 2 ++ "\n") := by
    rw [List.map_map]
    rfl
  simp only [Network.write_dot, dotGraphText, Network.digraph2, h1, h2, h3]

/-! ### Dictionary lemmas -/

theorem dictMem_false_iff {α : Type} (k : String) (d : Dict α) :
    dictMem k d = false ↔ ∀ p ∈ d, p.1 ≠ k := by
  induction d with
  | nil => simp [dictMem]
  | cons p rest ih => simp [dictMem, ih]

theorem dictGet?_some_of_mem {α : Type} (k : String) (d : Dict α)
    (h : dictMem k d = true) : ∃ v, dictGet? k d = some v := by
  induction d with
  | nil => simp [dictMem] at h
  | cons p rest ih =>
    by_cases hp : p.1 = k
    · exact ⟨p.2, by simp [dictGet?, hp]⟩
    · have hm : dictMem k rest = true := by simpa [dictMem, hp] using h
      obtain ⟨v, hv⟩ := ih hm
      exact ⟨v, by simpa [dictGet?, hp] using hv⟩

theorem dictGet?_none_of_not_mem {α : Type} (k : String) (d : Dict α)
    (h : dictMem k d = false) : dictGet? k d = none := by
  induction d with
  | nil => rfl
  | cons p rest ih =>
    simp only [dictMem, Bool.or_eq_false_iff, decide_eq_false_iff_not] at h
    simp [dictGet?, h.1, ih h.2]

theorem dictGet?_map_update {α : Type} (k : String) (f : α → α) (d : Dict α) :
    dictGet? k (d.map (fun p => if p.1 = k then (p.1, f p.2) else p))
      = (dictGet? k d).map f := by
  induction d with
  | nil => rfl
  | cons p rest ih =>
    by_cases hp : p.1 = k
    · simp [dictGet?, hp]
    · simp [dictGet?, hp, ih]

theorem dictGet?_map_update_ne {α : Type} (k k' : String) (f : α → α) (d : Dict α)
    (hne : k' ≠ k) :
    dictGet? k' (d.map (fun p => if p.1 = k then (p.1, f p.2) else p))
      = dictGet? k' d := by
  induction d with
  | nil => rfl
  | cons p rest ih =>
    by_cases hp : p.1 = k
    · simp [dictGet?, hp, Ne.symm hne, ih]
    · by_cases hp' : p.1 = k'
      · simp [dictGet?, hp, hp', hne]
      · simp [dictGet?, hp, hp', ih]

theorem dictGet?_append_of_none {α : Type} (k : String) (d1 d2 : Dict α)
    (h : dictGet? k d1 = none) : dictGet? k (d1 ++ d2) = dictGet? k d2 := by
  induction d1 with
  | nil => rfl
  | cons p rest ih =>
    by_cases hp : p.1 = k
    · simp [dictGet?, hp] at h
    · simp [dictGet?, hp] at h ⊢
      exact ih h

theorem dictGet?_append_of_some {α : Type} (k : String) (d1 d2 : Dict α) (v : α)
    (h : dictGet? k d1 = some v) : dictGet? k (d1 ++ d2) = some v := by
  induction d1 with
  | nil => simp [dictGet?] at h
  | cons p rest ih =>
    by_cases hp : p.1 = k
    · simp [dictGet?, hp] at h ⊢
      exact h
    · simp [dictGet?, hp] at h ⊢
      exact ih h

theorem dictGet?_insert_self {α : Type} (k : String) (v : α) (d : Dict α) :
    dictGet? k (dictInsert k v d) = some v := by
  unfold dictInsert
  by_cases h : dictMem k d = true
  · rw [if_pos h]
    have hu : dictGet? k (d.map (fun p => if p.1 = k then (p.1, v) else p))
        = (dictGet? k d).map (fun _ => v) := dictGet?_map_update k (fun _ => v) d
    obtain ⟨w, hw⟩ := dictGet?_some_of_mem k d h
    rw [hu, hw]
    rfl
  · have h' : dictMem k d = false := by simpa using h
    rw [if_neg (by simp [h']),
      dictGet?_append_of_none k d _ (dictGet?_none_of_not_mem k d h')]
    simp [dictGet?]

theorem dictGet?_insert_ne {α : Type} (k k' : String) (v : α) (d : Dict α)
    (hne : k' ≠ k) : dictGet? k' (dictInsert k v d) = dictGet? k' d := by
  unfold dictInsert
  by_cases h : dictMem k d = true
  · rw [if_pos h]
    exact dictGet?_map_update_ne k k' (fun _ => v) d hne
  · have h' : dictMem k d = false := by simpa using h
    rw [if_neg (by simp [h'])]
    cases hw : dictGet? k' d with
    | none =>
      rw [dictGet?_append_of_none k' d _ hw]
      simp [dictGet?, Ne.symm hne]
    | some w =>
      exact dictGet?_append_of_some k' d _ w hw

theorem dictMem_filter_pos {α : Type} (k : String) (d : Dict α)
    (h : dictMem k d = true) :
    0 < (d.filter (fun p => decide (p.1 = k))).length := by
  induction d with
  | nil => simp [dictMem] at h
  | cons p rest ih =>
    by_cases hp : p.1 = k
    · simp [List.filter, hp]
    · have hm : dictMem k rest = true := by simpa [dictMem, hp] using h
      simpa [List.filter, hp] using ih hm

theorem filter_key_insert {α : Type} (k : String) (v : α) (d : Dict α)
    (hle : (d.filter (fun p => decide (p.1 = k))).length ≤ 1) :
    (dictInsert k v d).filter (fun p => decide (p.1 = k)) = [(k, v)] := by
  unfold dictInsert
  by_cases h : dictMem k d = true
  · rw [if_pos h, List.filter_map]
    have hlen : (d.filter (fun p => decide (p.1 = k))).length = 1 :=
      Nat.le_antisymm hle (dictMem_filter_pos k d h)
    obtain ⟨q, hq⟩ := List.length_eq_one.mp hlen
    have hcomp : (d.filter ((fun p : String × α => decide (p.1 = k)) ∘
        (fun p => if p.1 = k then (p.1, v) else p))) = d.filter (fun p => decide (p.1 = k)) := by
      apply List.filter_congr
      intro p _
      by_cases hp : p.1 = k <;> simp [Function.comp, hp]
    rw [hcomp, hq]
    have hqk : q.1 = k := by
      have : q ∈ d.filter (fun p => decide (p.1 = k)) := by
        rw [hq]
        exact List.mem_singleton.mpr rfl
      simpa using (List.mem_filter.mp this).2
    simp [hqk]
  · have h' : dictMem k d = false := by simpa using h
    rw [if_neg (by simp [h'])]
    have hnil : d.filter (fun p => decide (p.1 = k)) = [] := by
      rw [List.filter_eq_nil_iff]
      intro p hp
      simpa using (dictMem_false_iff k d).mp h' p hp
    simp [List.filter_append, hnil]

/-! ### Character-level lemmas -/

theorem char_toLower_shift (d : Char) (hd : d.toNat ≥ 65 ∧ d.toNat ≤ 90) :
    (Char.toLower d).toNat = d.toNat + 32 := by
  simp only [Char.toLower]
  rw [if_pos hd]
  have hv : (d.toNat + 32).isValidChar := Or.inl (by omega)
  unfold Char.ofNat
  rw [dif_pos hv]
  rfl

theorem char_toLower_fix (d : Char) (hd : ¬(d.toNat ≥ 65 ∧ d.toNat ≤ 90)) :
    Char.toLower d = d := by
  simp only [Char.toLower]
  rw [if_neg hd]

theorem char_toLower_toLower (c : Char) :
    Char.toLower (Char.toLower c) = Char.toLower c := by
  by_cases h : c.toNat ≥ 65 ∧ c.toNat ≤ 90
  · apply char_toLower_fix
    rw [char_toLower_shift c h]
    omega
  · rw [char_toLower_fix c h, char_toLower_fix c h]

theorem specCodeChar_idem (c : Char) :
    specCodeChar (specCodeChar c) = specCodeChar c := by
  by_cases h : Char.toLower c = ' ' ∨ Char.toLower c = '.'
  · have h1 : specCodeChar c = '_' := by
      unfold specCodeChar
      rw [if_pos h]
    rw [h1]
    decide
  · have h1 : specCodeChar c = Char.toLower c := by
      unfold specCodeChar
      rw [if_neg h]
    rw [h1]
    unfold specCodeChar
    rw [char_toLower_toLower, if_neg h]

theorem to_code_to_code (s : String) : to_code (to_code s) = to_code s := by
  have h := to_code_eq_specNormalize
  rw [h s, h (specNormalize s)]
  apply String.ext
  simp only [specNormalize, List.map_map]
  apply List.map_congr_left
  intro c _
  exact specCodeChar_idem c

/-! ### Counting records produced by a reader -/

theorem length_filterMap_not_blank {α β : Type} (f : α → Option β) (blank : α → Bool)
    (h : ∀ a, (f a).isSome = !(blank a)) (l : List α) :
    (l.filterMap f).length = l.length - l.countP blank := by
  induction l with
  | nil => rfl
  | cons a l ih =>
    have hc : l.countP blank ≤ l.length := List.countP_le_length blank
    cases hb : blank a with
    | true =>
      have hs : (f a).isSome = false := by rw [h a, hb]; rfl
      have hfa : f a = none := Option.not_isSome_iff_eq_none.mp (by simp [hs])
      rw [List.filterMap_cons, hfa]
      simp only [List.countP_cons, hb, if_true, List.length_cons]
      rw [ih]
      omega
    | false =>
      have hs : (f a).isSome = true := by rw [h a, hb]; rfl
      obtain ⟨b, hfb⟩ := Option.isSome_iff_exists.mp hs
      rw [List.filterMap_cons, hfb]
      simp only [List.countP_cons, hb, Bool.false_eq_true, if_false, List.length_cons]
      rw [ih]
      omega

/-! ### Claim theorems -/

/-- Claim C3: for every input string, `to_code` returns the string
lower-cased with every space and every period replaced by an
underscore (`specNormalize` states exactly that, character by
character), and `to_code` is deterministic: equal inputs always yield
equal identifiers. -/
theorem to_code_spec_and_deterministic (s t : String) (h : s = t) :
    to_code s = to_code t ∧ to_code s = specNormalize s :=
  ⟨by rw [h], to_code_eq_specNormalize s⟩

/-- Witness for C3 at the concrete name `Library Cloud v2.0`. -/
theorem to_code_spec_and_deterministic_witness :
    "Library Cloud v2.0" = "Library Cloud v2.0" ∧
    (to_code "Library Cloud v2.0" = to_code "Library Cloud v2.0" ∧
     to_code "Library Cloud v2.0" = specNormalize "Library Cloud v2.0") :=
  ⟨rfl, to_code_spec_and_deterministic "Library Cloud v2.0" "Library Cloud v2.0" rfl⟩

/-- Claim C10: `to_code` is idempotent, and therefore the endpoints of
the data-flow records built by `read_dataflows` (already normalized
once there) are left unchanged by the second normalization inside the
edge rendering: the rendered edge identifiers equal the stored ones. -/
theorem to_code_idempotent (s : String) :
    to_code (to_code s) = to_code s ∧
    ∀ rows : List DfRow,
      (read_dataflows rows).map
        (fun df => ((DataFlow.add_to_graph df).source, (DataFlow.add_to_graph df).target))
      = (read_dataflows rows).map (fun df => (df.source, df.target)) := by
  refine ⟨to_code_to_code s, ?_⟩
  intro rows
  apply List.map_congr_left
  intro df hdf
  obtain ⟨r, _, hr⟩ := List.mem_filterMap.mp hdf
  by_cases hcond : r.source ≠ "" ∧ r.target ≠ ""
  · rw [if_pos hcond, Option.some.injEq] at hr
    rw [← hr]
    simp [DataFlow.add_to_graph, to_code_to_code]
  · rw [if_neg hcond] at hr
    exact absurd hr (by simp)

/-- Claim C4: each reader produces exactly one record per row that is
non-blank in its required field and skips the blank rows, so a table
of `N` rows with `k` blanks yields `N - k` records. -/
theorem readers_skip_blank_rows (es : List EnvRow) (ss : List SysRow) (ds : List DfRow) :
    (read_environments es).length
      = es.length - es.countP (fun r => decide (r.Environment = "")) ∧
    (read_systems ss).length
      = ss.length - ss.countP (fun r => decide (r.System = "")) ∧
    (read_dataflows ds).length
      = ds.length - ds.countP (fun r => decide (r.source = "" ∨ r.target = "")) := by
  refine ⟨?_, ?_, ?_⟩
  · apply length_filterMap_not_blank
    intro r
    by_cases h : r.Environment = "" <;> simp [h]
  · apply length_filterMap_not_blank
    intro r
    by_cases h : r.System = "" <;> simp [h]
  · apply length_filterMap_not_blank
    intro r
    by_cases hs : r.source = "" <;> by_cases ht : r.target = "" <;> simp [hs, ht]

/-- Claim C5: under both strategies the rendered edge connects the
normalized source identifier to the normalized target identifier, with
style `dashed` exactly when the mode string is `"r"` and `solid` for
every other mode value. -/
theorem dataflow_edge_style (df : DataFlow) (i : Nat) :
    DataFlow.to_dot df i = edgeText i (DataFlow.add_to_graph df) ∧
    (DataFlow.add_to_graph df).source = to_code df.source ∧
    (DataFlow.add_to_graph df).target = to_code df.target ∧
    ((DataFlow.add_to_graph df).style = "dashed" ↔ df.mode = "r") ∧
    ((DataFlow.add_to_graph df).style = "solid" ↔ df.mode ≠ "r") := by
  refine ⟨(edgeText_add_to_graph i df).symm, rfl, rfl, ?_, ?_⟩ <;>
    by_cases hm : df.mode = "r" <;>
    simp [DataFlow.add_to_graph, hm]

/-- Claim C6: the rendered cluster is `cluster_<code>`, labelled with
the display name at the bottom, dashed; both color attributes are
maroon exactly when the on-campus flag is set, and absent exactly when
it is not — and the text emission renders the same cluster statement. -/
theorem environment_cluster_attrs (e : Environment) (i : Nat) :
    Environment.to_dot e i = clusterText i (Environment.add_to_graph e) ∧
    (Environment.add_to_graph e).name = "cluster_" ++ e.code ∧
    (Environment.add_to_graph e).label = e.name ∧
    (Environment.add_to_graph e).labelloc = "b" ∧
    (Environment.add_to_graph e).style = "dashed" ∧
    (((Environment.add_to_graph e).color = some "maroon" ∧
      (Environment.add_to_graph e).fontcolor = some "maroon") ↔ e.oncampus = true) ∧
    (((Environment.add_to_graph e).color = none ∧
      (Environment.add_to_graph e).fontcolor = none) ↔ e.oncampus = false) := by
  refine ⟨(clusterText_add_to_graph i e).symm, rfl, rfl, rfl, rfl, ?_, ?_⟩ <;>
    cases honc : e.oncampus <;>
    simp [Environment.add_to_graph, honc]

/-- Claim C2: for every network state, the string-emission strategy
(`write_dot` via the `to_dot` methods) produces exactly the text that
the graph object built by `digraph2` (via the `add_to_graph` methods)
denotes: the same clusters with the same attributes, the same nodes
with the same labels and shapes, and the same edges with the same
styles, formatting aside. -/
theorem write_dot_equiv_digraph2 (n : Network) :
    Network.write_dot n = dotGraphText (Network.digraph2 n) :=
  write_dot_factors n

/-- Claim C1: adding a system whose normalized environment name is a
known environment key appends it to that environment's ordered list
and leaves the top-level system map untouched; otherwise it is
inserted top-level under its own code and every environment is left
untouched — never both, assuming the system was not already filed
anywhere (the state in which systems are added after environments). -/
theorem add_system_placement (net : Network) (sys : System)
    (henv : ∀ p ∈ net.environments, sys ∉ p.2.systems)
    (htop : sys ∉ dictValues net.systems) :
    (dictMem (to_code sys.environment) net.environments = true →
      (Network.add_system net sys).systems = net.systems ∧
      sys ∉ dictValues (Network.add_system net sys).systems ∧
      (∃ e, dictGet? (to_code sys.environment) net.environments = some e ∧
        dictGet? (to_code sys.environment) (Network.add_system net sys).environments
          = some (Environment.add_system e sys) ∧
        sys ∈ (Environment.add_system e sys).systems) ∧
      (∀ k, k ≠ to_code sys.environment →
        dictGet? k (Network.add_system net sys).environments
          = dictGet? k net.environments)) ∧
    (dictMem (to_code sys.environment) net.environments = false →
      (Network.add_system net sys).environments = net.environments ∧
      (∀ p ∈ (Network.add_system net sys).environments, sys ∉ p.2.systems) ∧
      dictGet? sys.code (Network.add_system net sys).systems = some sys ∧
      (Network.add_system net sys).systems = dictInsert sys.code sys net.systems) := by
  constructor
  · intro hm
    have hadd : Network.add_system net sys = { net with environments := net.environments.map (fun p => if p.1 = to_code sys.environment then (p.1, Environment.add_system p.2 sys) else p) } := by
      simp [Network.add_system, hm]
    refine ⟨by rw [hadd], ?_, ?_, ?_⟩
    · rw [hadd]
      exact htop
    · obtain ⟨e, he⟩ := dictGet?_some_of_mem _ _ hm
      refine ⟨e, he, ?_, ?_⟩
      · rw [hadd]
        exact (dictGet?_map_update (to_code sys.environment)
          (fun env => Environment.add_system env sys) net.environments).trans
            (by rw [he]; rfl)
      · simp [Environment.add_system]
    · intro k hk
      rw [hadd]
      exact dictGet?_map_update_ne (to_code sys.environment) k
        (fun env => Environment.add_system env sys) net.environments hk
  · intro hm
    have hadd : Network.add_system net sys = { net with systems := dictInsert sys.code sys net.systems } := by
      simp [Network.add_system, hm]
    refine ⟨by rw [hadd], ?_, ?_, by rw [hadd]⟩
    · rw [hadd]
      exact henv
    · rw [hadd]
      exact dictGet?_insert_self sys.code sys net.systems

/-- Witness for C1: `witnessNet` knows the environment of
`witnessSysKnown`, so the first branch fires there; the second branch
fires for a system naming an unknown environment. -/
theorem add_system_placement_witness :
    (∀ p ∈ witnessNet.environments, witnessSysKnown ∉ p.2.systems) ∧
    (witnessSysKnown ∉ dictValues witnessNet.systems) ∧
    ((dictMem (to_code witnessSysKnown.environment) witnessNet.environments = true →
      (Network.add_system witnessNet witnessSysKnown).systems = witnessNet.systems ∧
      witnessSysKnown ∉ dictValues (Network.add_system witnessNet witnessSysKnown).systems ∧
      (∃ e, dictGet? (to_code witnessSysKnown.environment) witnessNet.environments = some e ∧
        dictGet? (to_code witnessSysKnown.environment)
            (Network.add_system witnessNet witnessSysKnown).environments
          = some (Environment.add_system e witnessSysKnown) ∧
        witnessSysKnown ∈ (Environment.add_system e witnessSysKnown).systems) ∧
      (∀ k, k ≠ to_code witnessSysKnown.environment →
        dictGet? k (Network.add_system witnessNet witnessSysKnown).environments
          = dictGet? k witnessNet.environments)) ∧
    (dictMem (to_code witnessSysKnown.environment) witnessNet.environments = false →
      (Network.add_system witnessNet witnessSysKnown).environments = witnessNet.environments ∧
      (∀ p ∈ (Network.add_system witnessNet witnessSysKnown).environments,
        witnessSysKnown ∉ p.2.systems) ∧
      dictGet? witnessSysKnown.code (Network.add_system witnessNet witnessSysKnown).systems
        = some witnessSysKnown ∧
      (Network.add_system witnessNet witnessSysKnown).systems
        = dictInsert witnessSysKnown.code witnessSysKnown witnessNet.systems)) :=
  ⟨by decide, by decide,
    add_system_placement witnessNet witnessSysKnown (by decide) (by decide)⟩

/-- Claim C7: when two environments carry the same normalized code, a
later `add_environment` silently replaces the earlier entry — the map
then holds exactly the later environment under that key and every
other key is untouched (assuming the key was not duplicated to begin
with, which insertion can never produce). -/
theorem add_environment_overwrite (net : Network) (e1 e2 : Environment)
    (hcode : e1.code = e2.code)
    (huniq : (net.environments.filter (fun p => decide (p.1 = e2.code))).length ≤ 1) :
    dictGet? e2.code
        ((Network.add_environment (Network.add_environment net e1) e2).environments)
      = some e2 ∧
    ((Network.add_environment (Network.add_environment net e1) e2).environments).filter
        (fun p => decide (p.1 = e2.code))
      = [(e2.code, e2)] ∧
    (∀ k, k ≠ e2.code →
      dictGet? k ((Network.add_environment (Network.add_environment net e1) e2).environments)
        = dictGet? k net.environments) := by
  have henv : (Network.add_environment (Network.add_environment net e1) e2).environments
      = dictInsert e2.code e2 (dictInsert e1.code e1 net.environments) := rfl
  rw [henv, hcode]
  refine ⟨dictGet?_insert_self _ _ _, ?_, ?_⟩
  · apply filter_key_insert
    rw [filter_key_insert e2.code e1 net.environments huniq]
    simp
  · intro k hk
    rw [dictGet?_insert_ne _ _ _ _ hk, dictGet?_insert_ne _ _ _ _ hk]

/-- Witness for C7: two environments named `Library Cloud` and
`library.cloud` share the code `library_cloud`; the later one wins. -/
theorem add_environment_overwrite_witness :
    (to_code "Library Cloud" : String) = to_code "library.cloud" ∧
    ((Network.init "ILS").environments.filter
        (fun p => decide (p.1 = (Environment.mk (to_code "library.cloud") "library.cloud" "oncampus" true []).code))).length ≤ 1 ∧
    (dictGet? (Environment.mk (to_code "library.cloud") "library.cloud" "oncampus" true []).code
        ((Network.add_environment
          (Network.add_environment (Network.init "ILS")
            (Environment.mk (to_code "Library Cloud") "Library Cloud" "AWS" false []))
          (Environment.mk (to_code "library.cloud") "library.cloud" "oncampus" true [])).environments)
      = some (Environment.mk (to_code "library.cloud") "library.cloud" "oncampus" true []) ∧
    ((Network.add_environment
        (Network.add_environment (Network.init "ILS")
          (Environment.mk (to_code "Library Cloud") "Library Cloud" "AWS" false []))
        (Environment.mk (to_code "library.cloud") "library.cloud" "oncampus" true [])).environments).filter
        (fun p => decide (p.1 = (Environment.mk (to_code "library.cloud") "library.cloud" "oncampus" true []).code))
      = [((Environment.mk (to_code "library.cloud") "library.cloud" "oncampus" true []).code,
          Environment.mk (to_code "library.cloud") "library.cloud" "oncampus" true [])] ∧
    (∀ k, k ≠ (Environment.mk (to_code "library.cloud") "library.cloud" "oncampus" true []).code →
      dictGet? k ((Network.add_environment
          (Network.add_environment (Network.init "ILS")
            (Environment.mk (to_code "Library Cloud") "Library Cloud" "AWS" false []))
          (Environment.mk (to_code "library.cloud") "library.cloud" "oncampus" true [])).environments)
        = dictGet? k (Network.init "ILS").environments)) :=
  ⟨by decide, by decide,
    add_environment_overwrite (Network.init "ILS")
      (Environment.mk (to_code "Library Cloud") "Library Cloud" "AWS" false [])
      (Environment.mk (to_code "library.cloud") "library.cloud" "oncampus" true [])
      (by decide) (by decide)⟩

/-- Claim C9: `add_system` is total — in particular a system with no
environment at all (the empty environment name, which is what
`read_systems` stores for a blank cell) is placed in the top-level map
under its own code, by exactly the same insertion a system naming an
unknown environment receives; environments are untouched either way.
The empty-name hypothesis needs only that no registered environment
has the empty code, which holds for any reader-built network since
blank environment rows are skipped. -/
theorem add_system_empty_environment (net : Network) (sys : System)
    (hempty : sys.environment = "")
    (hkeys : dictMem "" net.environments = false) :
    (Network.add_system net sys).environments = net.environments ∧
    dictGet? sys.code (Network.add_system net sys).systems = some sys ∧
    (Network.add_system net sys).systems = dictInsert sys.code sys net.systems ∧
    (∀ sys2 : System, dictMem (to_code sys2.environment) net.environments = false →
      (Network.add_system net sys2).environments = net.environments ∧
      (Network.add_system net sys2).systems = dictInsert sys2.code sys2 net.systems) := by
  have hcode : to_code sys.environment = "" := by
    rw [hempty]
    decide
  have hm : dictMem (to_code sys.environment) net.environments = false := by
    rw [hcode]
    exact hkeys
  refine ⟨?_, ?_, ?_, ?_⟩
  · simp [Network.add_system, hm]
  · simp [Network.add_system, hm, dictGet?_insert_self]
  · simp [Network.add_system, hm]
  · intro sys2 hm2
    constructor <;> simp [Network.add_system, hm2]

/-- Witness for C9: a system with a blank environment name added to a
network whose only environment key is `library_cloud`. -/
theorem add_system_empty_environment_witness :
    witnessSysBlank.environment = "" ∧
    dictMem "" witnessNet.environments = false ∧
    ((Network.add_system witnessNet witnessSysBlank).environments = witnessNet.environments ∧
    dictGet? witnessSysBlank.code (Network.add_system witnessNet witnessSysBlank).systems
      = some witnessSysBlank ∧
    (Network.add_system witnessNet witnessSysBlank).systems
      = dictInsert witnessSysBlank.code witnessSysBlank witnessNet.systems ∧
    (∀ sys2 : System, dictMem (to_code sys2.environment) witnessNet.environments = false →
      (Network.add_system witnessNet sys2).environments = witnessNet.environments ∧
      (Network.add_system witnessNet sys2).systems
        = dictInsert sys2.code sys2 witnessNet.systems)) :=
  ⟨rfl, by decide,
    add_system_empty_environment witnessNet witnessSysBlank rfl (by decide)⟩

set_option maxRecDepth 8192 in
/-- Claim C8: the end-to-end example — one environment `Library Cloud`
(AWS, on campus), systems `Catalog` (in it) and `Reporting` (no
environment), one read-mode flow from `Catalog` to `Reporting` —
renders as exactly one cluster `cluster_library_cloud` containing the
node `catalog`, one top-level node `reporting`, and one dashed edge
from `catalog` to `reporting`; the emitted DOT text is spelled out. -/
theorem end_to_end_example :
    Network.digraph2 exampleNetwork =
      { name := "ILS",
        clusters := [{ name := "cluster_library_cloud", label := "Library Cloud",
                       labelloc := "b", style := "dashed",
                       color := some "maroon", fontcolor := some "maroon",
                       nodes := [{ id := "catalog", label := "Catalog", shape := "box" }] }],
        nodes := [{ id := "reporting", label := "Reporting", shape := "box" }],
        edges := [{ source := "catalog", target := "reporting", style := "dashed" }] } ∧
    Network.write_dot exampleNetwork
      = "digraph ILS \x7b\n  subgraph cluster_library_cloud \x7b\n    label=\"Library Cloud\";\n    labelloc=\"b\";\n    style=dashed;\n    color=\"maroon\";\n    fontcolor=\"maroon\";\n\n    catalog [label=\"Catalog\", shape=box];\n  \x7d\n\n  reporting [label=\"Reporting\", shape=box];\n\n\n  catalog -> reporting [style=\"dashed\"]\n\x7d\n" := by
  constructor
  · decide
  · decide

end DataflowDiagram
